import Mathlib

/-!
Verification development for the medical-compliance RAG repository.

The definitions below are shallow embeddings of the Python source modules
src/chunker.py, src/audit_logger.py, src/rag_system.py,
src/document_registry.py and src/access_control.py.  Pure functions become
Lean functions; file-backed state (the JSONL audit log, the registry and
user JSON stores) becomes explicit list-shaped state threaded through the
operations; external capabilities (the tiktoken tokenizer, the embedding
index lookup, the ollama generation backend, md5 hashing and the wall
clock) become function or value parameters.  Machine floats are modelled
as exact rationals with Python rounding (round-half-to-even) made explicit.
-/

namespace MedRag

/-- Python-style whitespace test: the characters removed by str.strip(). -/
def pyIsSpace (c : Char) : Bool :=
  c == ' ' || c == '\t' || c == '\n' || c == '\r' || c == '\x0b' || c == '\x0c'

/-- Python str.strip(): drop leading and trailing whitespace. -/
def pyStrip (s : String) : String :=
  String.mk (((s.data.dropWhile pyIsSpace).reverse.dropWhile pyIsSpace).reverse)

/-- Helper for pySplit, structurally recursive on a fuel argument that is
kept at least as large as the character list, so the fuel-exhausted branch
is unreachable. -/
def pySplitAux (sep : List Char) : Nat → List Char → List Char → List (List Char)
  | 0, acc, rest => [acc.reverse ++ rest]
  | _ + 1, acc, [] => [acc.reverse]
  | fuel + 1, acc, c :: cs =>
      if List.isPrefixOf sep (c :: cs) then
        acc.reverse :: pySplitAux sep fuel [] ((c :: cs).drop sep.length)
      else
        pySplitAux sep fuel (c :: acc) cs

/-- Python str.split(sep) for a non-empty separator: non-overlapping,
left-to-right, keeping empty pieces ("".split(sep) = [""], and a trailing
separator yields a trailing empty piece). -/
def pySplit (s : String) (sep : String) : List String :=
  (pySplitAux sep.data (s.data.length + 1) [] s.data).map String.mk

/-- Python sep.join(parts). -/
def pyJoin (sep : String) : List String → String
  | [] => ""
  | [a] => a
  | a :: rest => a ++ sep ++ pyJoin sep rest

/-- Helper for pyStrLt: lexicographic comparison of character lists. -/
def pyStrLtAux : List Char → List Char → Bool
  | [], [] => false
  | [], _ :: _ => true
  | _ :: _, [] => false
  | a :: as, b :: bs => if a < b then true else if b < a then false else pyStrLtAux as bs

/-- Python string comparison a < b (lexicographic on code points); the audit
logger compares ISO dates "YYYY-MM-DD" this way. -/
def pyStrLt (a b : String) : Bool := pyStrLtAux a.data b.data

/-- First-match association-list lookup: the model of Python dict access,
where keys are unique by construction. -/
def alistGet {α : Type} (l : List (String × α)) (k : String) : Option α :=
  (l.find? (fun p => p.1 == k)).map (fun p => p.2)

/-- Membership of a key in an association list (Python `key in dict`). -/
def alistHasKey {α : Type} (l : List (String × α)) (k : String) : Bool :=
  (alistGet l k).isSome

/-- Round to the nearest integer with ties going to the even integer: the
tie rule of Python round(). -/
def roundHalfEven (q : ℚ) : ℤ :=
  if q - ⌊q⌋ < 1 / 2 then ⌊q⌋
  else if (1 : ℚ) / 2 < q - ⌊q⌋ then ⌊q⌋ + 1
  else if 2 ∣ ⌊q⌋ then ⌊q⌋ else ⌊q⌋ + 1

/-- Model of Python round(x, 2) over exact rationals. -/
def pyRound2 (q : ℚ) : ℚ := (roundHalfEven (q * 100) : ℚ) / 100

/-- Model of Python round(x, 1) over exact rationals. -/
def pyRound1 (q : ℚ) : ℚ := (roundHalfEven (q * 10) : ℚ) / 10

/-! ## Chunker (src/chunker.py, DocumentChunker)

`chunk_text` is embedded as a fold over the paragraph list with the loop
state made explicit.  The tokenizer `self.count_tokens` (tiktoken
cl100k_base) is an external capability and enters as a function parameter
`tk`.  The embedding is instrumented: each produced chunk records the list
of units (paragraphs or sentences) that the Python buffer `current_chunk`
held when it was flushed, which separator the Python code joins them with,
which of the four flush sites produced it, and whether the buffer was still
exactly the two-element overlap re-seed `[previous last unit, paragraph]`
from line 91 of the source.  Erasing the instrumentation (`render_chunk`)
gives exactly the content strings the Python function returns; the
metadata dict attached to every chunk is an identical copy of the input
metadata and is not modelled. -/

/-- Which separator the Python code joins a flushed buffer with. -/
inductive JoinSep where
  | para
  | sent
deriving DecidableEq

/-- Which of the four flush sites of chunk_text emitted a chunk:
paraOverflow is the flush when appending a paragraph would exceed the
budget (followed by the overlap re-seed); preSentence is the flush of the
pending buffer when an oversized paragraph arrives; sentOverflow is the
flush inside the sentence loop; finalFlush is the flush after the loop. -/
inductive FlushKind where
  | paraOverflow
  | preSentence
  | sentOverflow
  | finalFlush
deriving DecidableEq

/-- An instrumented chunk: the buffer contents at flush time plus ghost
fields recording how the flush happened. -/
structure TChunk where
  units : List String
  sep : JoinSep
  kind : FlushKind
  reseed_pair : Bool
deriving DecidableEq

/-- The loop state of chunk_text: chunks emitted so far, the pending
buffer `current_chunk`, the tracked `current_tokens`, and the ghost flag
telling whether the buffer is still exactly an overlap re-seed pair. -/
structure ChunkState where
  out : List TChunk
  cur : List String
  cur_tokens : Nat
  cur_reseed : Bool
deriving DecidableEq

/-- One iteration of the sentence loop of chunk_text (lines 58-75 of
src/chunker.py): strip the sentence, skip it if empty, flush the buffer
when adding the sentence would exceed the budget, otherwise append it. -/
def step_sent (tk : String → Nat) (chunk_size : Nat) (st : ChunkState) (sent0 : String) :
    ChunkState :=
  let sent := pyStrip sent0
  if sent == "" then st
  else
    let sent_tokens := tk sent
    if chunk_size < st.cur_tokens + sent_tokens then
      let out2 :=
        if st.cur.isEmpty then st.out
        else st.out ++ [{ units := st.cur, sep := .sent, kind := .sentOverflow,
                          reseed_pair := st.cur_reseed }]
      { out := out2, cur := [sent], cur_tokens := sent_tokens, cur_reseed := false }
    else
      { st with cur := st.cur ++ [sent], cur_tokens := st.cur_tokens + sent_tokens,
                cur_reseed := false }

/-- One iteration of the paragraph loop of chunk_text (lines 38-98 of
src/chunker.py).  An oversized paragraph first flushes the pending buffer
and is then split on ". " and packed sentence by sentence; note that the
sentence leftovers stay in the buffer when the loop continues.  A
paragraph that would overflow a non-empty buffer flushes it and re-seeds
the buffer with the flushed buffer's last unit plus the new paragraph,
recomputing the tracked count on the joined text. -/
def step_para (tk : String → Nat) (chunk_size : Nat) (st : ChunkState) (para0 : String) :
    ChunkState :=
  let para := pyStrip para0
  if para == "" then st
  else
    let para_tokens := tk para
    if chunk_size < para_tokens then
      let st1 :=
        if st.cur.isEmpty then st
        else { out := st.out ++ [{ units := st.cur, sep := .para, kind := .preSentence,
                                   reseed_pair := st.cur_reseed }],
               cur := [], cur_tokens := 0, cur_reseed := false }
      (pySplit para ". ").foldl (step_sent tk chunk_size) st1
    else if chunk_size < st.cur_tokens + para_tokens then
      if st.cur.isEmpty then
        { st with cur := [para], cur_tokens := para_tokens, cur_reseed := false }
      else
        let carried := st.cur.getLastD ""
        { out := st.out ++ [{ units := st.cur, sep := .para, kind := .paraOverflow,
                              reseed_pair := st.cur_reseed }],
          cur := [carried, para],
          cur_tokens := tk (pyJoin "\n\n" [carried, para]),
          cur_reseed := true }
    else
      { st with cur := st.cur ++ [para], cur_tokens := st.cur_tokens + para_tokens,
                cur_reseed := false }

/-- The initial loop state of chunk_text. -/
def initChunkState : ChunkState :=
  { out := [], cur := [], cur_tokens := 0, cur_reseed := false }

/-- Instrumented DocumentChunker.chunk_text: split the text on blank lines,
fold the paragraph step over the pieces, and flush any remaining buffer. -/
def chunk_text_t (tk : String → Nat) (chunk_size : Nat) (text : String) : List TChunk :=
  let st := (pySplit text "\n\n").foldl (step_para tk chunk_size) initChunkState
  if st.cur.isEmpty then st.out
  else st.out ++ [{ units := st.cur, sep := .para, kind := .finalFlush,
                    reseed_pair := st.cur_reseed }]

/-- The content string the Python code builds for a flushed buffer:
'\n\n'.join for paragraph-site flushes, '. '.join plus a trailing period
for sentence-loop flushes. -/
def render_chunk (c : TChunk) : String :=
  match c.sep with
  | .para => pyJoin "\n\n" c.units
  | .sent => pyJoin ". " c.units ++ "."

/-- DocumentChunker.chunk_text: the list of chunk content strings, obtained
by erasing the instrumentation. -/
def chunk_text (tk : String → Nat) (chunk_size : Nat) (text : String) : List String :=
  (chunk_text_t tk chunk_size text).map render_chunk

/-- A concrete tokenizer used to evaluate the chunker on closed inputs: a
token per character that is not a newline, a period or a space.  It is
additive over string append and assigns zero to the join separators, so it
counts a joined buffer exactly as the sum of its units. -/
def tok_char (c : Char) : Bool := !(c == '\n' || c == '.' || c == ' ')

/-- Token count of the concrete demonstration tokenizer. -/
def tk_demo (s : String) : Nat := (s.data.filter tok_char).length

/-! ## Audit logger (src/audit_logger.py, AuditLogger)

The JSONL log file is modelled as the list of its records in append
order.  The md5 hash, the ISO timestamp, the date string, the hour and
the elapsed wall time produced by the clock are parameters.  The fields of
a record are exactly those written by log_query. -/

/-- One line of the audit log file (the dict built in log_query). -/
structure QueryLogEntry where
  query_id : String
  timestamp : String
  user_id : String
  query : String
  query_length : Nat
  sources_retrieved : List String
  num_sources : Nat
  answer_generated : Bool
  response_time_seconds : ℚ
  model_used : String
  error : Option String
  date : String
  hour : Nat
deriving DecidableEq

/-- AuditLogger.log_query: build the record and append it to the log,
returning the derived query id.  `hash` stands for the md5-prefix
computation and `timestamp`, `date`, `hour` for the datetime.now() reads. -/
def log_query (log : List QueryLogEntry) (hash : String → String)
    (timestamp date : String) (hour : Nat)
    (user_id query : String) (sources_retrieved : List String)
    (answer_generated : Bool) (response_time_seconds : ℚ)
    (model_used : String) (num_sources : Nat) (error : Option String) :
    String × List QueryLogEntry :=
  let query_id := hash (user_id ++ timestamp ++ query)
  (query_id,
    log ++ [{ query_id := query_id, timestamp := timestamp, user_id := user_id,
              query := query, query_length := query.data.length,
              sources_retrieved := sources_retrieved, num_sources := num_sources,
              answer_generated := answer_generated,
              response_time_seconds := pyRound2 response_time_seconds,
              model_used := model_used, error := error, date := date, hour := hour }])

/-- AuditLogger.get_logs: scan the file in order keeping records that pass
the optional user and date filters, then apply the limit: Python
logs[-limit:] keeps the final `limit` records.  A limit of zero is falsy
in Python and means no limit. -/
def get_logs (log : List QueryLogEntry) (user_id : Option String)
    (start_date end_date : Option String) (limit : Option Nat) : List QueryLogEntry :=
  let logs := log.filter (fun e =>
    (match user_id with | none => true | some u => e.user_id == u) &&
    (match start_date with | none => true | some s => !(pyStrLt e.date s)) &&
    (match end_date with | none => true | some t => !(pyStrLt t e.date)))
  match limit with
  | none => logs
  | some n => if n == 0 then logs else logs.drop (logs.length - n)

/-- The statistics dict of get_statistics in the non-empty case.  The
presentation-only aggregates top_5_sources, peak_hour and queries_by_date
are computed from the same window but are consumed only by the dashboard
and are not modelled. -/
structure UsageStats where
  period_days : Nat
  total_queries : Nat
  unique_users : Nat
  avg_response_time_seconds : ℚ
  success_rate : ℚ
  queries_per_day : ℚ
deriving DecidableEq

/-- The two shapes get_statistics can return: the distinguished no-data
dict (total_queries 0 plus a message) or the statistics dict. -/
inductive StatsResult where
  | noData (total_queries : Nat) (period_days : Nat) (message : String)
  | stats (s : UsageStats)
deriving DecidableEq

/-- AuditLogger.get_statistics: filter the log to the window starting at
`cutoff_date` (computed in the source as now minus `days` days), return
the no-data dict on an empty window, otherwise compute the statistics.
Note the source rounds success_rate and the average response time to two
decimal places. -/
def get_statistics (log : List QueryLogEntry) (days : Nat) (cutoff_date : String) :
    StatsResult :=
  let logs := get_logs log none (some cutoff_date) none none
  if logs.isEmpty then .noData 0 days "No queries in this period"
  else
    let total_queries := logs.length
    let unique_users := (logs.map (fun e => e.user_id)).dedup.length
    let avg_response_time :=
      (logs.map (fun e => e.response_time_seconds)).sum / (total_queries : ℚ)
    let successful := (logs.filter (fun e => e.answer_generated)).length
    let success_rate :=
      if 0 < total_queries then (successful : ℚ) / (total_queries : ℚ) else 0
    .stats { period_days := days, total_queries := total_queries,
             unique_users := unique_users,
             avg_response_time_seconds := pyRound2 avg_response_time,
             success_rate := pyRound2 success_rate,
             queries_per_day := pyRound1 ((total_queries : ℚ) / (days : ℚ)) }

/-! ## RAG orchestrator (src/rag_system.py, RAGSystem)

The vector store query outcome and the ollama generation backend are
external capabilities: the former enters as the Except-valued result of
vector_store.query for the question (an exception there is the only
source of the error path of RAGSystem.query), the latter as an
Except-valued function of the prompt.  The audit log is the explicit list
state; RAGSystem.query returns the response together with the new log. -/

/-- The metadata dict stored with a chunk, as read back from the vector
store; both fields are read with .get and an "Unknown" default. -/
structure ChunkMeta where
  source_file : Option String
  chunk_id : Option String
deriving DecidableEq

/-- The shape of a chromadb query result: documents and metadatas are
lists of per-query lists, of which RAGSystem.retrieve_context takes the
first element (or [] when absent). -/
structure VSResult where
  documents : List (List String)
  metadatas : List (List ChunkMeta)
deriving DecidableEq

/-- One entry of the response's sources list. -/
structure SourceRef where
  file : String
  chunk_id : String
  preview : String
deriving DecidableEq

/-- The dict RAGSystem.query returns. -/
structure RAGResponse where
  question : String
  answer : String
  sources : List SourceRef
  model : String
  num_sources : Nat
deriving DecidableEq

/-- The external world of one query call: the vector store outcome, the
generation backend, the clock reads and the hash. -/
structure RAGEnv where
  vs_result : Except String VSResult
  generate : String → Except String String
  timestamp : String
  date : String
  hour : Nat
  elapsed : ℚ
  hash : String → String

/-- The orchestrator state relevant to a query: the model name, the
enable_audit construction flag and the audit log contents. -/
structure RAGState where
  model_name : String
  enable_audit : Bool
  log : List QueryLogEntry

/-- RAGSystem.retrieve_context: first row of documents and metadatas. -/
def retrieve_context (r : VSResult) : List String × List ChunkMeta :=
  (r.documents.headD [], r.metadatas.headD [])

/-- RAGSystem.build_prompt: label each retrieved chunk with its source and
wrap the context and question in the fixed instruction text. -/
def build_prompt (query : String) (context_docs : List String)
    (context_metadata : List ChunkMeta) : String :=
  let context_parts := (List.zip context_docs context_metadata).enum.map (fun p =>
    "[Source " ++ toString (p.1 + 1) ++ ": " ++ p.2.2.source_file.getD "Unknown" ++ "]\n"
      ++ p.2.1)
  let context := pyJoin "\n\n" context_parts
  "You are a medical compliance expert assistant. Answer the question based ONLY on the provided context from official compliance documents.\n\nCONTEXT:\n"
    ++ context ++ "\n\nQUESTION: " ++ query
    ++ "\n\nINSTRUCTIONS:\n1. Provide a clear, actionable answer based on the context above\n2. Cite specific sources using [Source X] markers\n3. If the context mentions specific regulations (e.g., OSHA 1910.1030, HIPAA Privacy Rule), include them\n4. If the context does not contain enough information to fully answer the question, say so\n5. Be concise but thorough\n6. Use bullet points for multi-step procedures\n\nANSWER:"

/-- The dict RAGSystem.generate_answer returns. -/
structure GenResult where
  answer : String
  model : String
deriving DecidableEq

/-- RAGSystem.generate_answer: invoke the backend; a backend exception is
caught and converted into a textual error answer, never re-raised. -/
def generate_answer (env : RAGEnv) (model_name : String) (prompt : String) : GenResult :=
  match env.generate prompt with
  | .ok r => { answer := r, model := model_name }
  | .error e => { answer := "Error generating response: " ++ e, model := model_name }

/-- The preview field of a source entry: the first 200 characters plus an
ellipsis when the chunk is longer. -/
def preview_of (doc : String) : String :=
  if 200 < doc.data.length then String.mk (doc.data.take 200) ++ "..." else doc

/-- RAGSystem.query: the try block runs retrieval, prompt construction and
generation; only retrieval can raise (generate_answer swallows backend
errors), so the except branch captures exactly the retrieval failures,
zeroing the sources.  Afterwards, when audit is enabled, exactly one
log_query call appends one record, with error_msg still None whenever no
exception was raised.  Returns the response and the new log. -/
def rag_query (env : RAGEnv) (st : RAGState) (question user_id : String) :
    RAGResponse × List QueryLogEntry :=
  match env.vs_result with
  | .ok r =>
      let error_msg : Option String := none
      let docs := (retrieve_context r).1
      let metas := (retrieve_context r).2
      let prompt := build_prompt question docs metas
      let result := generate_answer env st.model_name prompt
      let source_files := metas.map (fun m => m.source_file.getD "Unknown")
      let response : RAGResponse :=
        { question := question, answer := result.answer,
          sources := (List.zip docs metas).map (fun p =>
            { file := p.2.source_file.getD "Unknown",
              chunk_id := p.2.chunk_id.getD "Unknown",
              preview := preview_of p.1 }),
          model := result.model, num_sources := docs.length }
      let log2 :=
        if st.enable_audit then
          (log_query st.log env.hash env.timestamp env.date env.hour user_id question
            source_files error_msg.isNone env.elapsed st.model_name
            source_files.length error_msg).2
        else st.log
      (response, log2)
  | .error e =>
      let error_msg : Option String := some e
      let source_files : List String := []
      let response : RAGResponse :=
        { question := question, answer := "Error processing query: " ++ e,
          sources := [], model := st.model_name, num_sources := 0 }
      let log2 :=
        if st.enable_audit then
          (log_query st.log env.hash env.timestamp env.date env.hour user_id question
            source_files error_msg.isNone env.elapsed st.model_name
            source_files.length error_msg).2
        else st.log
      (response, log2)

/-! ## Document registry (src/document_registry.py, DocumentRegistry)

The whole-file JSON store is modelled as an association list in insertion
order; datetime.now().isoformat() reads enter as the `now` parameter. -/

/-- One value of the registry's documents dict. -/
structure DocEntry where
  document_id : String
  added_date : String
  source_url : Option String
  document_type : String
  classification : String
  version : String
  last_verified : String
  last_updated : String
  times_referenced : Nat
  status : String
  retention_years : Nat
  tags : List String
deriving DecidableEq

/-- The documents dict of the registry file. -/
abbrev Registry := List (String × DocEntry)

/-- DocumentRegistry.register_document: a no-op (with a warning print)
when the id is already registered, otherwise insert a fresh entry. -/
def register_document (reg : Registry) (now : String) (document_id : String)
    (source_url : Option String) (document_type classification version : String) :
    Registry :=
  if alistHasKey reg document_id then reg
  else reg ++ [(document_id,
    { document_id := document_id, added_date := now, source_url := source_url,
      document_type := document_type, classification := classification,
      version := version, last_verified := now, last_updated := now,
      times_referenced := 0, status := "active", retention_years := 7, tags := [] })]

/-- DocumentRegistry.update_reference_count: add `increment` to the
counter of a registered document. -/
def update_reference_count (reg : Registry) (document_id : String) (increment : Nat) :
    Registry :=
  reg.map (fun p =>
    if p.1 == document_id then
      (p.1, { p.2 with times_referenced := p.2.times_referenced + increment })
    else p)

/-- The reference_counts tally of sync_with_audit_logs: the total number
of occurrences of `source` across the sources_retrieved lists of all log
lines. -/
def reference_count (logs : List QueryLogEntry) (source : String) : Nat :=
  ((logs.map (fun e => e.sources_retrieved)).flatten).count source

/-- DocumentRegistry.sync_with_audit_logs: tally references per source
over the whole log, then overwrite (not increment) the times_referenced
field of every registered document that occurs in the tally; documents
absent from the tally are left untouched.  The Python loop iterates over
the tally and mutates the dict in place; since dict keys are unique this
is the same per-entry update expressed as a map over the registry. -/
def sync_with_audit_logs (reg : Registry) (logs : List QueryLogEntry) : Registry :=
  reg.map (fun p =>
    if 0 < reference_count logs p.1 then
      (p.1, { p.2 with times_referenced := reference_count logs p.1 })
    else p)

/-! ## Access control (src/access_control.py, AccessControlSystem)

The users JSON store is an association list.  A permission bundle maps
permission names to values that are booleans except for the string-valued
access_level, so bundle values are modelled as a sum; check_permission
returns the raw looked-up value, whose Python truthiness is what callers
branch on. -/

/-- A value in a role's permission bundle. -/
inductive PermValue where
  | bool (b : Bool)
  | str (s : String)
deriving DecidableEq

/-- Python truthiness of a permission-bundle value. -/
def pyTruthy : PermValue → Bool
  | .bool b => b
  | .str s => !(s == "")

/-- One value of the users dict. -/
structure User where
  user_id : String
  name : String
  email : String
  role : String
  department : Option String
  permissions : List (String × PermValue)
  created_date : String
  last_active : Option String
  status : String
  query_count : Nat
deriving DecidableEq

/-- The fixed role bundles defined in AccessControlSystem.__init__. -/
def role_permissions : List (String × List (String × PermValue)) :=
  [("employee",
     [("can_query_rag", .bool true),
      ("can_view_own_analytics", .bool true),
      ("can_view_org_analytics", .bool false),
      ("can_modify_knowledge_base", .bool false),
      ("can_manage_users", .bool false),
      ("can_view_audit_logs", .bool false),
      ("access_level", .str "standard")]),
   ("trainer",
     [("can_query_rag", .bool true),
      ("can_view_own_analytics", .bool true),
      ("can_view_org_analytics", .bool true),
      ("can_modify_knowledge_base", .bool false),
      ("can_manage_users", .bool false),
      ("can_view_audit_logs", .bool true),
      ("access_level", .str "elevated")]),
   ("admin",
     [("can_query_rag", .bool true),
      ("can_view_own_analytics", .bool true),
      ("can_view_org_analytics", .bool true),
      ("can_modify_knowledge_base", .bool true),
      ("can_manage_users", .bool true),
      ("can_view_audit_logs", .bool true),
      ("access_level", .str "full")])]

/-- AccessControlSystem.check_permission: False for an unknown user, False
for a non-active user, otherwise the bundle value with default False. -/
def check_permission (users : List (String × User)) (user_id permission : String) :
    PermValue :=
  match alistGet users user_id with
  | none => .bool false
  | some u =>
      if u.status != "active" then .bool false
      else (alistGet u.permissions permission).getD (.bool false)

/-! ## Proof-support predicates for the chunker loop -/

/-- Proof support: the relation between consecutive chunks asserting the
overlap carry-over — whenever the left chunk was flushed at the
paragraph-overflow site, the right chunk starts with the left chunk's last
unit. -/
def OvR (ci cj : TChunk) : Prop :=
  ci.kind = FlushKind.paraOverflow → cj.units.head? = ci.units.getLast?

/-- Proof support: the loop invariant giving overlap continuity — emitted
chunks are pairwise linked by OvR, a trailing paragraph-overflow chunk has
its last unit sitting at the head of the pending buffer, and no chunk has
an empty unit list. -/
def OverlapInv (st : ChunkState) : Prop :=
  List.Chain' OvR st.out ∧
  (∀ c ∈ st.out.getLast?, c.kind = FlushKind.paraOverflow →
    st.cur.head? = c.units.getLast?) ∧
  (∀ c ∈ st.out, c.units ≠ [])

/-- Proof support: the loop invariant giving the token-budget bound — the
tracked count equals the sum of the unit counts (for tokenizers additive
over the paragraph join), any buffer of two or more units that is not the
overlap re-seed pair is within budget, and every emitted chunk of two or
more units that was not flushed as a re-seed pair is within budget. -/
def TokenInv (tk : String → Nat) (cs : Nat) (st : ChunkState) : Prop :=
  st.cur_tokens = (st.cur.map tk).sum ∧
  (st.cur_reseed = false → 2 ≤ st.cur.length → (st.cur.map tk).sum ≤ cs) ∧
  (∀ c ∈ st.out, c.units ≠ [] ∧
    (2 ≤ c.units.length → c.reseed_pair = false → (c.units.map tk).sum ≤ cs))

/-! ## Concrete fixtures for closed evaluations -/

/-- Test fixture: a log record with the fields the claims inspect. -/
def mkEntry (uid date : String) (ok : Bool) (sources : List String) : QueryLogEntry :=
  { query_id := "", timestamp := "", user_id := uid, query := "", query_length := 0,
    sources_retrieved := sources, num_sources := sources.length,
    answer_generated := ok, response_time_seconds := 0,
    model_used := "llama3.1:8b", error := none, date := date, hour := 0 }

/-- Test fixture: retrieved-chunk metadata for the generation-failure run. -/
def c1_meta : ChunkMeta :=
  { source_file := some "osha.pdf", chunk_id := some "osha.pdf_chunk_0" }

/-- Test fixture: an environment where retrieval succeeds with one chunk
and the generation backend fails. -/
def c1_env : RAGEnv :=
  { vs_result := .ok { documents := [["chunk body"]], metadatas := [[c1_meta]] },
    generate := fun _ => .error "backend down",
    timestamp := "2025-03-01T10:00:00", date := "2025-03-01", hour := 10,
    elapsed := 0, hash := fun _ => "qid123" }

/-- Test fixture: an audit-enabled orchestrator with an empty log. -/
def c1_state : RAGState :=
  { model_name := "llama3.1:8b", enable_audit := true, log := [] }

/-- Test fixture: an environment where the retrieval step itself fails. -/
def c3_env : RAGEnv :=
  { vs_result := .error "index unreachable",
    generate := fun _ => .ok "unused",
    timestamp := "2025-03-01T11:00:00", date := "2025-03-01", hour := 11,
    elapsed := 0, hash := fun _ => "qid456" }

/-- Test fixture: a two-record window with one successful answer. -/
def c5Log : List QueryLogEntry :=
  [mkEntry "EMP0001" "2025-03-01" true ["osha.pdf"],
   mkEntry "EMP0002" "2025-03-02" false []]

/-- Test fixture: a three-record window with one successful answer, whose
exact success ratio 1/3 is not representable in two decimals. -/
def c5LogCx : List QueryLogEntry :=
  [mkEntry "EMP0001" "2025-03-01" true [],
   mkEntry "EMP0002" "2025-03-02" false [],
   mkEntry "EMP0001" "2025-03-03" false []]

/-- Test fixture: a three-record log for the limit behavior of get_logs. -/
def c10Log : List QueryLogEntry :=
  [mkEntry "EMP0001" "2025-03-01" true [],
   mkEntry "EMP0002" "2025-03-02" true [],
   mkEntry "EMP0003" "2025-03-03" true []]

/-- Test fixture: a registry entry with a non-zero starting counter. -/
def c6Doc (id : String) : DocEntry :=
  { document_id := id, added_date := "2025-01-01", source_url := none,
    document_type := "compliance", classification := "public", version := "1.0",
    last_verified := "2025-01-01", last_updated := "2025-01-01",
    times_referenced := 5, status := "active", retention_years := 7, tags := [] }

/-- Test fixture: a two-document registry. -/
def c6Reg : Registry := [("a.pdf", c6Doc "a.pdf"), ("b.pdf", c6Doc "b.pdf")]

/-- Test fixture: audit records referencing a.pdf three times and b.pdf
never. -/
def c6Logs : List QueryLogEntry :=
  [mkEntry "EMP0001" "2025-02-01" true ["a.pdf", "a.pdf"],
   mkEntry "EMP0002" "2025-02-02" true ["a.pdf"]]

/-- Test fixture: a deactivated admin user. -/
def c8_admin : User :=
  { user_id := "ADMIN001", name := "System Administrator",
    email := "admin@healthcare.example.com", role := "admin",
    department := some "IT",
    permissions := (alistGet role_permissions "admin").getD [],
    created_date := "2025-01-01", last_active := none,
    status := "inactive", query_count := 0 }

/-- Test fixture: a users store holding only the deactivated admin. -/
def c8_users : List (String × User) := [("ADMIN001", c8_admin)]

/-- Test fixture: the statistics record computed for the three-record
window, with success_rate written as the literal two-decimal value. -/
def c5CxStats : UsageStats :=
  { period_days := 30, total_queries := 3, unique_users := 2,
    avg_response_time_seconds := 0, success_rate := 33 / 100,
    queries_per_day := 1 / 10 }

/-! ## Theorems -/

/-- C1 (code behavior at the failing input): when retrieval succeeds with
one chunk and the generation backend fails, RAGSystem.query returns the
error text in the answer field and num_sources = 1 as the claim states,
but the audit record it writes carries answer_generated = true and
error = None, because generate_answer swallows the backend exception and
the error_msg variable of query is never assigned. -/
theorem generation_failure_logged_as_success :
    (rag_query c1_env c1_state "q1" "EMP1").1.answer
        = "Error generating response: backend down" ∧
    (rag_query c1_env c1_state "q1" "EMP1").1.num_sources = 1 ∧
    ((rag_query c1_env c1_state "q1" "EMP1").2.map
        (fun e => (e.answer_generated, e.error, e.num_sources, e.sources_retrieved)))
      = [(true, none, 1, ["osha.pdf"])] := by
  decide

/-- C3: every call to RAGSystem.query with audit enabled appends exactly
one record to the audit log — the old log is a prefix and the length grows
by one — whether or not retrieval or generation failed; and a
retrieval-stage failure still produces a record with an empty source list,
answer_generated = false and the error preserved. -/
theorem rag_query_audit_completeness (env : RAGEnv) (st : RAGState)
    (question user_id : String) (h : st.enable_audit = true) :
    ((rag_query env st question user_id).2).length = st.log.length + 1 ∧
    ((rag_query env st question user_id).2).take st.log.length = st.log ∧
    (∀ e, env.vs_result = .error e →
      ∀ entry, ((rag_query env st question user_id).2).getLast? = some entry →
        entry.sources_retrieved = [] ∧ entry.answer_generated = false ∧
        entry.error = some e) := by
  cases hv : env.vs_result with
  | ok r =>
      refine ⟨?_, ?_, ?_⟩
      · simp [rag_query, hv, h, log_query]
      · simp [rag_query, hv, h, log_query, List.take_left]
      · intro e he
        exact absurd he (by simp)
  | error e0 =>
      refine ⟨?_, ?_, ?_⟩
      · simp [rag_query, hv, h, log_query]
      · simp [rag_query, hv, h, log_query, List.take_left]
      · intro e he entry hlast
        injection he with h1
        subst h1
        simp only [rag_query, hv, h, log_query, if_true] at hlast
        rw [List.getLast?_concat] at hlast
        injection hlast with h2
        subst h2
        exact ⟨rfl, rfl, rfl⟩

/-- C3 witness: a concrete retrieval-failure call on an audit-enabled
state grows the log by exactly one record. -/
theorem rag_query_audit_completeness_witness :
    ((rag_query c3_env c1_state "q" "u").2).length = c1_state.log.length + 1 :=
  (rag_query_audit_completeness c3_env c1_state "q" "u" rfl).1

/-- C5 counterexample: on a window of three records with one success the
code reports success_rate = 33/100, which differs from the exact ratio
1/3 by 1/300 — far more than floating rounding — because get_statistics
applies round(x, 2). -/
theorem get_statistics_rounding_counterexample :
    get_statistics c5LogCx 30 "2025-01-01" = StatsResult.stats c5CxStats ∧
    (33 : ℚ) / 100 ≠ (1 : ℚ) / 3 ∧
    (1 : ℚ) / 1000 < |(33 : ℚ) / 100 - 1 / 3| := by
  refine ⟨?_, by norm_num, ?_⟩
  · have hW : get_logs c5LogCx none (some "2025-01-01") none none = c5LogCx := by
      decide
    rw [get_statistics, hW]
    norm_num [c5LogCx, c5CxStats, mkEntry, pyRound2, pyRound1, roundHalfEven]
    decide
  · rw [abs_of_neg (by norm_num : (33 : ℚ) / 100 - 1 / 3 < 0)]
    norm_num

/-- C5: get_statistics reports total_queries equal to the number of
window records and success_rate equal to the successful fraction rounded
to two decimal places; an empty window yields the distinguished no-data
result with total_queries = 0 and a message instead of dividing by
zero. -/
theorem get_statistics_window_correct (log : List QueryLogEntry) (days : Nat)
    (cutoff : String) :
    (get_logs log none (some cutoff) none none = [] →
      get_statistics log days cutoff
        = StatsResult.noData 0 days "No queries in this period") ∧
    (get_logs log none (some cutoff) none none ≠ [] →
      get_statistics log days cutoff = StatsResult.stats
        { period_days := days,
          total_queries := (get_logs log none (some cutoff) none none).length,
          unique_users :=
            ((get_logs log none (some cutoff) none none).map
              (fun e => e.user_id)).dedup.length,
          avg_response_time_seconds := pyRound2
            (((get_logs log none (some cutoff) none none).map
                (fun e => e.response_time_seconds)).sum
              / ((get_logs log none (some cutoff) none none).length : ℚ)),
          success_rate := pyRound2
            ((((get_logs log none (some cutoff) none none).filter
                  (fun e => e.answer_generated)).length : ℚ)
              / ((get_logs log none (some cutoff) none none).length : ℚ)),
          queries_per_day := pyRound1
            (((get_logs log none (some cutoff) none none).length : ℚ)
              / (days : ℚ)) }) := by
  constructor
  · intro h
    simp [get_statistics, h]
  · intro h
    have hlen : 0 < (get_logs log none (some cutoff) none none).length :=
      List.length_pos.mpr h
    simp [get_statistics, h, hlen]

/-- C5 witness: the two-record window with one success is non-empty and
gets the stats shape of the theorem. -/
theorem get_statistics_window_correct_witness :
    get_statistics c5Log 30 "2025-01-01" = StatsResult.stats
      { period_days := 30,
        total_queries := (get_logs c5Log none (some "2025-01-01") none none).length,
        unique_users :=
          ((get_logs c5Log none (some "2025-01-01") none none).map
            (fun e => e.user_id)).dedup.length,
        avg_response_time_seconds := pyRound2
          (((get_logs c5Log none (some "2025-01-01") none none).map
              (fun e => e.response_time_seconds)).sum
            / ((get_logs c5Log none (some "2025-01-01") none none).length : ℚ)),
        success_rate := pyRound2
          ((((get_logs c5Log none (some "2025-01-01") none none).filter
                (fun e => e.answer_generated)).length : ℚ)
            / ((get_logs c5Log none (some "2025-01-01") none none).length : ℚ)),
        queries_per_day := pyRound1
          (((get_logs c5Log none (some "2025-01-01") none none).length : ℚ)
            / ((30 : Nat) : ℚ)) } :=
  (get_statistics_window_correct c5Log 30 "2025-01-01").2 (by decide)

/-- C6: sync_with_audit_logs sets the times_referenced counter of every
registered document occurring in the log to the total number of its
occurrences across all log records — overwriting, not incrementing, the
previous counter value. -/
theorem sync_overwrites_counter (reg : Registry) (logs : List QueryLogEntry)
    (d : String) (e : DocEntry) (hmem : (d, e) ∈ reg)
    (hocc : 0 < reference_count logs d) :
    (d, { e with times_referenced := reference_count logs d })
      ∈ sync_with_audit_logs reg logs := by
  have h2 := List.mem_map_of_mem
    (f := fun p : String × DocEntry =>
      if 0 < reference_count logs p.1 then
        (p.1, { p.2 with times_referenced := reference_count logs p.1 })
      else p) hmem
  simpa [sync_with_audit_logs, hocc] using h2

/-- C6 witness: a.pdf occurs three times in the demo log; after the sync
its registry entry carries counter 3 even though it started at 5. -/
theorem sync_overwrites_counter_witness :
    ("a.pdf", { c6Doc "a.pdf" with times_referenced := reference_count c6Logs "a.pdf" })
      ∈ sync_with_audit_logs c6Reg c6Logs :=
  sync_overwrites_counter c6Reg c6Logs "a.pdf" (c6Doc "a.pdf") (by decide) (by decide)

/-- C7: register_document with an already-registered id returns the
registry completely unchanged — no duplicate entry and no overwritten
field. -/
theorem register_document_idempotent (reg : Registry) (now document_id : String)
    (source_url : Option String) (document_type classification version : String)
    (h : alistHasKey reg document_id = true) :
    register_document reg now document_id source_url document_type classification
      version = reg := by
  simp [register_document, h]

/-- C7 witness: registering doc1 twice leaves the registry of the first
call unchanged. -/
theorem register_document_idempotent_witness :
    register_document
      (register_document [] "t0" "doc1" none "compliance" "public" "1.0")
      "t1" "doc1" none "compliance" "public" "1.0"
      = register_document [] "t0" "doc1" none "compliance" "public" "1.0" :=
  register_document_idempotent
    (register_document [] "t0" "doc1" none "compliance" "public" "1.0")
    "t1" "doc1" none "compliance" "public" "1.0" (by decide)

/-- C8: check_permission returns False for an unknown user, returns False
for a non-active user regardless of role and permission name, and returns
a falsy value whenever the named permission is absent from or falsy in
the user's bundle. -/
theorem check_permission_denies (users : List (String × User))
    (user_id permission : String) :
    (alistGet users user_id = none →
      check_permission users user_id permission = PermValue.bool false) ∧
    (∀ u, alistGet users user_id = some u → u.status ≠ "active" →
      check_permission users user_id permission = PermValue.bool false) ∧
    (∀ u, alistGet users user_id = some u →
      (∀ v, alistGet u.permissions permission = some v → pyTruthy v = false) →
      pyTruthy (check_permission users user_id permission) = false) := by
  refine ⟨?_, ?_, ?_⟩
  · intro h
    simp [check_permission, h]
  · intro u hu hst
    simp [check_permission, hu, bne_iff_ne, hst]
  · intro u hu hperm
    by_cases hst : u.status = "active"
    · cases hv : alistGet u.permissions permission with
      | none => simp [check_permission, hu, hst, hv, pyTruthy]
      | some v =>
          have := hperm v hv
          simp [check_permission, hu, hst, hv, this]
    · simp [check_permission, hu, bne_iff_ne, hst, pyTruthy]

/-- C8 witness: the deactivated admin is denied can_manage_users despite
the admin bundle granting it. -/
theorem check_permission_denies_witness :
    check_permission c8_users "ADMIN001" "can_manage_users" = PermValue.bool false :=
  (check_permission_denies c8_users "ADMIN001" "can_manage_users").2.1 c8_admin
    (by decide) (by decide)

/-- C9: sync_with_audit_logs is a frame for everything except the
times_referenced counters of documents occurring in the log: an entry for
a document that never occurs keeps exactly its previous value, and every
entry keeps all fields other than times_referenced. -/
theorem sync_frame_effect (reg : Registry) (logs : List QueryLogEntry) :
    (∀ d e, (d, e) ∈ reg → reference_count logs d = 0 →
      (d, e) ∈ sync_with_audit_logs reg logs) ∧
    (∀ d e, (d, e) ∈ reg → ∃ n,
      (d, { e with times_referenced := n }) ∈ sync_with_audit_logs reg logs) := by
  constructor
  · intro d e hmem hz
    have h2 := List.mem_map_of_mem
      (f := fun p : String × DocEntry =>
        if 0 < reference_count logs p.1 then
          (p.1, { p.2 with times_referenced := reference_count logs p.1 })
        else p) hmem
    simpa [sync_with_audit_logs, hz] using h2
  · intro d e hmem
    have h2 := List.mem_map_of_mem
      (f := fun p : String × DocEntry =>
        if 0 < reference_count logs p.1 then
          (p.1, { p.2 with times_referenced := reference_count logs p.1 })
        else p) hmem
    by_cases hc : 0 < reference_count logs d
    · refine ⟨reference_count logs d, ?_⟩
      simpa [sync_with_audit_logs, hc] using h2
    · refine ⟨e.times_referenced, ?_⟩
      simpa [sync_with_audit_logs, hc] using h2

/-- C9 witness: b.pdf never occurs in the demo log and its entry survives
the sync exactly unchanged (counter still 5). -/
theorem sync_frame_effect_witness :
    ("b.pdf", c6Doc "b.pdf") ∈ sync_with_audit_logs c6Reg c6Logs :=
  (sync_frame_effect c6Reg c6Logs).1 "b.pdf" (c6Doc "b.pdf") (by decide) (by decide)

/-- C10: get_logs with a positive limit n returns the final n elements of
the filtered sequence (a suffix of length min n N, i.e. the most recently
appended matches in order), and the unlimited filtered sequence is a
subsequence of the log in append order. -/
theorem get_logs_limit_last (log : List QueryLogEntry) (uf sf ef : Option String)
    (n : Nat) (h : 0 < n) :
    get_logs log uf sf ef (some n)
        = (get_logs log uf sf ef none).drop
            ((get_logs log uf sf ef none).length - n) ∧
    (get_logs log uf sf ef (some n)).length
        = min n (get_logs log uf sf ef none).length ∧
    (get_logs log uf sf ef (some n)) <:+ (get_logs log uf sf ef none) ∧
    (get_logs log uf sf ef none).Sublist log := by
  have hn : (n == 0) = false := by
    cases n with
    | zero => exact absurd h (by simp)
    | succ m => rfl
  refine ⟨?_, ?_, ?_, ?_⟩
  · simp [get_logs, hn]
  · simp only [get_logs, hn, if_false, Bool.false_eq_true, List.length_drop]
    omega
  · simp only [get_logs, hn, if_false, Bool.false_eq_true]
    exact List.drop_suffix _ _
  · exact List.filter_sublist _

/-- C10 witness: limit 2 on the three-record demo log yields the final
two records. -/
theorem get_logs_limit_last_witness :
    get_logs c10Log none none none (some 2)
      = (get_logs c10Log none none none none).drop
          ((get_logs c10Log none none none none).length - 2) :=
  (get_logs_limit_last c10Log none none none 2 (by decide)).1

/-! ## Chunker lemmas and theorems -/

/-- The demonstration tokenizer is additive over string append. -/
lemma tk_demo_append (a b : String) : tk_demo (a ++ b) = tk_demo a + tk_demo b := by
  simp [tk_demo, String.data_append]

/-- The demonstration tokenizer counts a blank-line join as the sum of the
parts, since the separator holds no tokens. -/
lemma tk_demo_join_para (l : List String) :
    tk_demo (pyJoin "\n\n" l) = (l.map tk_demo).sum := by
  induction l with
  | nil => rfl
  | cons a t ih =>
      cases t with
      | nil => simp [pyJoin]
      | cons b t2 =>
          have hsep : tk_demo "\n\n" = 0 := by decide
          simp [pyJoin, tk_demo_append, hsep] at ih ⊢
          omega

/-- The demonstration tokenizer counts a sentence join plus trailing
period as the sum of the parts. -/
lemma tk_demo_join_sent (l : List String) :
    tk_demo (pyJoin ". " l ++ ".") = (l.map tk_demo).sum := by
  have hdot : tk_demo "." = 0 := by decide
  induction l with
  | nil => simpa [pyJoin] using hdot
  | cons a t ih =>
      cases t with
      | nil => simp [pyJoin, tk_demo_append, hdot]
      | cons b t2 =>
          have hsep : tk_demo ". " = 0 := by decide
          simp [pyJoin, tk_demo_append, hsep, hdot] at ih ⊢
          omega

/-- A non-empty list's optional last element is its defaulted last
element. -/
lemma getLast?_eq_getLastD {α : Type} (l : List α) (d : α) (h : l ≠ []) :
    l.getLast? = some (l.getLastD d) := by
  cases l with
  | nil => exact absurd rfl h
  | cons a t => simp [List.getLastD_eq_getLast?, List.getLast?_cons]

/-- Flushing the buffer as a chunk preserves the overlap invariant,
provided a paragraph-overflow flush starts the new buffer with the old
buffer's last unit. -/
lemma overlapInv_flush (st : ChunkState) (h : OverlapInv st)
    (sep : JoinSep) (k : FlushKind) (r : Bool) (hcur : st.cur ≠ [])
    (newCur : List String) (nt : Nat) (nr : Bool)
    (hhead : k = FlushKind.paraOverflow → newCur.head? = st.cur.getLast?) :
    OverlapInv { out := st.out ++ [{ units := st.cur, sep := sep, kind := k,
                                     reseed_pair := r }],
                 cur := newCur, cur_tokens := nt, cur_reseed := nr } := by
  obtain ⟨hchain, hlink, hne⟩ := h
  refine ⟨?_, ?_, ?_⟩
  · rw [List.chain'_append]
    refine ⟨hchain, List.chain'_singleton _, ?_⟩
    intro x hx y hy hk
    simp only [List.head?_cons, Option.mem_def, Option.some.injEq] at hy
    subst hy
    exact hlink x hx hk
  · intro c hc hk
    rw [List.getLast?_concat] at hc
    simp only [Option.mem_def, Option.some.injEq] at hc
    subst hc
    exact hhead hk
  · intro c hc
    rcases List.mem_append.mp hc with h1 | h1
    · exact hne c h1
    · simp only [List.mem_singleton] at h1
      subst h1
      exact hcur

/-- Under the overlap invariant, a trailing paragraph-overflow chunk
forces the pending buffer to be non-empty. -/
lemma overlapInv_cur_ne_of_last (st : ChunkState) (h : OverlapInv st)
    (c : TChunk) (hc : st.out.getLast? = some c)
    (hk : c.kind = FlushKind.paraOverflow) : st.cur ≠ [] := by
  obtain ⟨hchain, hlink, hne⟩ := h
  have h1 := hlink c hc hk
  obtain ⟨hn, he⟩ := List.mem_getLast?_eq_getLast (l := st.out) (x := c) hc
  have h3 : c.units ≠ [] := hne c (he ▸ List.getLast_mem hn)
  intro hnil
  rw [hnil] at h1
  simp only [List.head?_nil] at h1
  exact h3 (List.getLast?_eq_none_iff.mp h1.symm)

/-- A transition that emits nothing and preserves the buffer head (when
the buffer is non-empty) preserves the overlap invariant. -/
lemma overlapInv_keep_cur (st : ChunkState) (h : OverlapInv st)
    (newCur : List String) (nt : Nat) (nr : Bool)
    (hhead : st.cur ≠ [] → newCur.head? = st.cur.head?) :
    OverlapInv { out := st.out, cur := newCur, cur_tokens := nt,
                 cur_reseed := nr } := by
  obtain ⟨hchain, hlink, hne⟩ := h
  refine ⟨hchain, ?_, hne⟩
  intro c hc hk
  have hcur : st.cur ≠ [] :=
    overlapInv_cur_ne_of_last st ⟨hchain, hlink, hne⟩ c hc hk
  rw [hhead hcur]
  exact hlink c hc hk

/-- One sentence-loop step preserves the overlap invariant. -/
lemma overlapInv_step_sent (tk : String → Nat) (cs : Nat) (st : ChunkState)
    (s : String) (h : OverlapInv st) : OverlapInv (step_sent tk cs st s) := by
  simp only [step_sent]
  split
  · exact h
  · split
    · by_cases hc : st.cur.isEmpty
      · simp only [hc, if_true]
        refine overlapInv_keep_cur st h _ _ _ ?_
        intro hne2
        exact absurd (List.isEmpty_iff.mp hc) hne2
      · simp only [hc, if_false]
        refine overlapInv_flush st h _ _ _
          (by simpa [List.isEmpty_iff] using hc) _ _ _ ?_
        intro hk
        exact absurd hk (by simp)
    · refine overlapInv_keep_cur st h _ _ _ ?_
      intro hne2
      cases hcur : st.cur with
      | nil => exact absurd hcur hne2
      | cons a t => simp

/-- The whole sentence loop preserves the overlap invariant. -/
lemma overlapInv_foldl_sent (tk : String → Nat) (cs : Nat) (l : List String)
    (st : ChunkState) (h : OverlapInv st) :
    OverlapInv (l.foldl (step_sent tk cs) st) := by
  induction l generalizing st with
  | nil => exact h
  | cons a t ih => exact ih _ (overlapInv_step_sent tk cs st a h)

/-- One paragraph-loop step preserves the overlap invariant. -/
lemma overlapInv_step_para (tk : String → Nat) (cs : Nat) (st : ChunkState)
    (s : String) (h : OverlapInv st) : OverlapInv (step_para tk cs st s) := by
  simp only [step_para]
  split
  · exact h
  · split
    · refine overlapInv_foldl_sent tk cs _ _ ?_
      by_cases hc : st.cur.isEmpty
      · simpa only [hc, if_true] using h
      · simp only [hc, if_false]
        refine overlapInv_flush st h _ _ _
          (by simpa [List.isEmpty_iff] using hc) _ _ _ ?_
        intro hk
        exact absurd hk (by simp)
    · split
      · split
        · refine overlapInv_keep_cur st h _ _ _ ?_
          intro hne2
          exact absurd (List.isEmpty_iff.mp (by assumption)) hne2
        · refine overlapInv_flush st h _ _ _ ?_ _ _ _ ?_
          · intro hnil
            simp [hnil] at *
          · intro _
            rw [List.head?_cons]
            exact (getLast?_eq_getLastD st.cur "" (by
              intro hnil
              simp [hnil] at *)).symm
      · refine overlapInv_keep_cur st h _ _ _ ?_
        intro hne2
        cases hcur : st.cur with
        | nil => exact absurd hcur hne2
        | cons a t => simp

/-- The initial loop state satisfies the overlap invariant. -/
lemma overlapInv_init : OverlapInv initChunkState := by
  refine ⟨List.chain'_nil, ?_, ?_⟩ <;> simp [initChunkState]

/-- The whole paragraph loop preserves the overlap invariant. -/
lemma overlapInv_foldl_para (tk : String → Nat) (cs : Nat) (l : List String)
    (st : ChunkState) (h : OverlapInv st) :
    OverlapInv (l.foldl (step_para tk cs) st) := by
  induction l generalizing st with
  | nil => exact h
  | cons a t ih => exact ih _ (overlapInv_step_para tk cs st a h)

/-- The chunk sequence produced by chunk_text is chained by the overlap
relation, never ends in a paragraph-overflow chunk, and has no chunk with
an empty unit list. -/
lemma chunk_text_t_chain (tk : String → Nat) (cs : Nat) (text : String) :
    List.Chain' OvR (chunk_text_t tk cs text) ∧
    (∀ c, (chunk_text_t tk cs text).getLast? = some c →
      c.kind ≠ FlushKind.paraOverflow) ∧
    (∀ c ∈ chunk_text_t tk cs text, c.units ≠ []) := by
  have hst := overlapInv_foldl_para tk cs (pySplit text "\n\n") initChunkState
    overlapInv_init
  unfold chunk_text_t
  obtain ⟨hchain, hlink, hne⟩ := hst
  by_cases hc : ((pySplit text "\n\n").foldl (step_para tk cs)
      initChunkState).cur.isEmpty = true
  · rw [if_pos hc]
    refine ⟨hchain, ?_, hne⟩
    intro c hlastc hk
    have hcur := overlapInv_cur_ne_of_last _ ⟨hchain, hlink, hne⟩ c hlastc hk
    exact hcur (List.isEmpty_iff.mp hc)
  · rw [if_neg hc]
    refine ⟨?_, ?_, ?_⟩
    · rw [List.chain'_append]
      refine ⟨hchain, List.chain'_singleton _, ?_⟩
      intro x hx y hy hk2
      simp only [List.head?_cons, Option.mem_def, Option.some.injEq] at hy
      subst hy
      exact hlink x hx hk2
    · intro c hlastc
      rw [List.getLast?_concat] at hlastc
      injection hlastc with h2
      subst h2
      simp
    · intro c hmem
      rcases List.mem_append.mp hmem with h1 | h1
      · exact hne c h1
      · simp only [List.mem_singleton] at h1
        subst h1
        simpa [List.isEmpty_iff] using hc

/-- C4: for any tokenizer and budget, whenever chunk i was flushed at the
paragraph-overflow site (the boundary that re-seeds the buffer with the
overlap paragraph), chunk i+1 exists and its first unit equals chunk i's
last unit — the spec's overlap-continuity property; sentence-fallback
flushes carry no such guarantee and are excluded by the kind
hypothesis. -/
theorem chunk_overlap_continuity (tk : String → Nat) (cs : Nat) (text : String)
    (i : Nat) (ci : TChunk)
    (h1 : (chunk_text_t tk cs text)[i]? = some ci)
    (hk : ci.kind = FlushKind.paraOverflow) :
    ((chunk_text_t tk cs text)[i + 1]?).bind (fun c => c.units.head?)
        = ci.units.getLast? ∧ ci.units ≠ [] := by
  obtain ⟨hchain, hlast, hne⟩ := chunk_text_t_chain tk cs text
  have hmem : ci ∈ chunk_text_t tk cs text := List.getElem?_mem h1
  obtain ⟨hlen, hget⟩ := List.getElem?_eq_some_iff.mp h1
  have hlt : i + 1 < (chunk_text_t tk cs text).length := by
    rcases Nat.lt_or_ge (i + 1) (chunk_text_t tk cs text).length with h | h
    · exact h
    · exfalso
      have heq : i = (chunk_text_t tk cs text).length - 1 := by omega
      have : (chunk_text_t tk cs text).getLast? = some ci := by
        rw [List.getLast?_eq_getElem?, ← heq]
        exact h1
      exact hlast ci this hk
  have hchain2 := List.chain'_iff_get.mp hchain i (by omega)
  have hgi : (chunk_text_t tk cs text).get ⟨i, by omega⟩ = ci := by
    simpa [List.get_eq_getElem] using hget
  rw [hgi] at hchain2
  have hgj : (chunk_text_t tk cs text)[i + 1]?
      = some ((chunk_text_t tk cs text).get ⟨i + 1, hlt⟩) := by
    simp [List.get_eq_getElem, List.getElem?_eq_getElem hlt]
  refine ⟨?_, hne ci hmem⟩
  rw [hgj]
  simpa using hchain2 hk

/-- C4 witness: on "aa\n\nbb\n\nccc" with budget 4, chunk 0 is a
paragraph-overflow flush of [aa, bb] and chunk 1 starts with bb. -/
theorem chunk_overlap_continuity_witness :
    (chunk_text_t tk_demo 4 "aa\n\nbb\n\nccc")[0]?
        = some { units := ["aa", "bb"], sep := JoinSep.para,
                 kind := FlushKind.paraOverflow, reseed_pair := false } ∧
    ((chunk_text_t tk_demo 4 "aa\n\nbb\n\nccc")[0 + 1]?).bind
        (fun c => c.units.head?)
      = ({ units := ["aa", "bb"], sep := JoinSep.para,
           kind := FlushKind.paraOverflow,
           reseed_pair := false } : TChunk).units.getLast? :=
  ⟨by decide,
   (chunk_overlap_continuity tk_demo 4 "aa\n\nbb\n\nccc" 0 _ (by decide)
      (by decide)).1⟩

/-- The initial loop state satisfies the token invariant. -/
lemma tokenInv_init (tk : String → Nat) (cs : Nat) :
    TokenInv tk cs initChunkState := by
  refine ⟨rfl, ?_, ?_⟩ <;> simp [initChunkState]

/-- One sentence-loop step preserves the token invariant. -/
lemma tokenInv_step_sent (tk : String → Nat) (cs : Nat) (st : ChunkState)
    (s : String) (h : TokenInv tk cs st) : TokenInv tk cs (step_sent tk cs st s) := by
  obtain ⟨h1, h2, h3⟩ := h
  simp only [step_sent]
  by_cases hemp : (pyStrip s == "") = true
  · rw [if_pos hemp]
    exact ⟨h1, h2, h3⟩
  · rw [if_neg hemp]
    by_cases hover : cs < st.cur_tokens + tk (pyStrip s)
    · rw [if_pos hover]
      refine ⟨by simp, by intro _ hlen; simp at hlen, ?_⟩
      by_cases hc : st.cur.isEmpty = true
      · rw [if_pos hc]
        exact h3
      · rw [if_neg hc]
        intro c hmem
        rcases List.mem_append.mp hmem with hold | hnew
        · exact h3 c hold
        · simp only [List.mem_singleton] at hnew
          subst hnew
          refine ⟨by simpa [List.isEmpty_iff] using hc, ?_⟩
          intro hlen hres
          exact h2 hres hlen
    · rw [if_neg hover]
      refine ⟨?_, ?_, h3⟩
      · simp [h1, List.map_append, List.sum_append]
      · intro _ _
        have hle : st.cur_tokens + tk (pyStrip s) ≤ cs := Nat.le_of_not_lt hover
        rw [h1] at hle
        simpa [List.map_append, List.sum_append] using hle

/-- One paragraph-loop step preserves the token invariant, for token
counting additive over the two-element blank-line join used at the
re-seed. -/
lemma tokenInv_step_para (tk : String → Nat) (cs : Nat)
    (Hpara2 : ∀ a b, tk (pyJoin "\n\n" [a, b]) = tk a + tk b)
    (st : ChunkState) (s : String) (h : TokenInv tk cs st) :
    TokenInv tk cs (step_para tk cs st s) := by
  obtain ⟨h1, h2, h3⟩ := h
  simp only [step_para]
  by_cases hemp : (pyStrip s == "") = true
  · rw [if_pos hemp]
    exact ⟨h1, h2, h3⟩
  · rw [if_neg hemp]
    by_cases hbig : cs < tk (pyStrip s)
    · rw [if_pos hbig]
      have hst1 : TokenInv tk cs (if st.cur.isEmpty then st
          else { out := st.out ++ [{ units := st.cur, sep := .para,
                                     kind := .preSentence,
                                     reseed_pair := st.cur_reseed }],
                 cur := [], cur_tokens := 0, cur_reseed := false }) := by
        by_cases hc : st.cur.isEmpty = true
        · rw [if_pos hc]
          exact ⟨h1, h2, h3⟩
        · rw [if_neg hc]
          refine ⟨by simp, by intro _ hlen; simp at hlen, ?_⟩
          intro c hmem
          rcases List.mem_append.mp hmem with hold | hnew
          · exact h3 c hold
          · simp only [List.mem_singleton] at hnew
            subst hnew
            refine ⟨by simpa [List.isEmpty_iff] using hc, ?_⟩
            intro hlen hres
            exact h2 hres hlen
      clear h1 h2 h3
      generalize hst : (if st.cur.isEmpty then st else _) = st1 at hst1
      clear hst
      induction (pySplit (pyStrip s) ". ") generalizing st1 with
      | nil => exact hst1
      | cons a t ih => exact ih _ (tokenInv_step_sent tk cs st1 a hst1)
    · rw [if_neg hbig]
      by_cases hover : cs < st.cur_tokens + tk (pyStrip s)
      · rw [if_pos hover]
        by_cases hc : st.cur.isEmpty = true
        · rw [if_pos hc]
          exact ⟨by simp, by intro _ hlen; simp at hlen, h3⟩
        · rw [if_neg hc]
          refine ⟨?_, by intro hres; simp at hres, ?_⟩
          · simp [Hpara2]
          · intro c hmem
            rcases List.mem_append.mp hmem with hold | hnew
            · exact h3 c hold
            · simp only [List.mem_singleton] at hnew
              subst hnew
              refine ⟨by simpa [List.isEmpty_iff] using hc, ?_⟩
              intro hlen hres
              exact h2 hres hlen
      · rw [if_neg hover]
        refine ⟨?_, ?_, h3⟩
        · simp [h1, List.map_append, List.sum_append]
        · intro _ _
          have hle : st.cur_tokens + tk (pyStrip s) ≤ cs := Nat.le_of_not_lt hover
          rw [h1] at hle
          simpa [List.map_append, List.sum_append] using hle

/-- C2 counterexample: with a tokenizer that is additive over the joins
(one token per non-separator character) and budget 4, the text of three
paragraphs aaa, bbb, ccc makes the middle chunk the overlap re-seed pair
"aaa\n\nbbb": two atomic units, each within budget, yet the chunk holds 6
tokens — the bound fails on a chunk that is not a single atomic unit. -/
theorem chunk_size_bound_counterexample :
    chunk_text tk_demo 4 "aaa\n\nbbb\n\nccc"
        = ["aaa", "aaa\n\nbbb", "bbb\n\nccc"] ∧
    tk_demo "aaa\n\nbbb" = 6 ∧ ¬(tk_demo "aaa\n\nbbb" ≤ 4) ∧
    pySplit "aaa\n\nbbb" "\n\n" = ["aaa", "bbb"] ∧
    tk_demo "aaa" ≤ 4 ∧ tk_demo "bbb" ≤ 4 := by
  decide

/-- C2 (amended): for token counting additive over the blank-line join
and subadditive over the sentence join, every chunk that is neither a
single atomic unit nor a flushed overlap re-seed pair has token count at
most chunk_size; the re-seeded pair (previous chunk's last unit plus the
overflowing paragraph) may jointly exceed the budget, as the
counterexample shows. -/
theorem chunk_size_bound_amended (tk : String → Nat) (cs : Nat)
    (Hpara : ∀ l, l ≠ [] → tk (pyJoin "\n\n" l) = (l.map tk).sum)
    (Hsent : ∀ l, l ≠ [] → tk (pyJoin ". " l ++ ".") ≤ (l.map tk).sum)
    (text : String) :
    ∀ c ∈ chunk_text_t tk cs text, 2 ≤ c.units.length → c.reseed_pair = false →
      tk (render_chunk c) ≤ cs := by
  have Hpara2 : ∀ a b, tk (pyJoin "\n\n" [a, b]) = tk a + tk b := by
    intro a b
    have := Hpara [a, b] (by simp)
    simpa using this
  have hinv : TokenInv tk cs
      ((pySplit text "\n\n").foldl (step_para tk cs) initChunkState) := by
    have h0 := tokenInv_init tk cs
    generalize hst : initChunkState = st0 at h0
    clear hst
    induction (pySplit text "\n\n") generalizing st0 with
    | nil => exact h0
    | cons a t ih => exact ih _ (tokenInv_step_para tk cs Hpara2 st0 a h0)
  obtain ⟨h1, h2, h3⟩ := hinv
  have hbound : ∀ c : TChunk, c.units ≠ [] → (c.units.map tk).sum ≤ cs →
      tk (render_chunk c) ≤ cs := by
    intro c hne hsum
    cases hsep : c.sep with
    | para =>
        rw [render_chunk, hsep]
        rw [Hpara c.units hne]
        exact hsum
    | sent =>
        rw [render_chunk, hsep]
        exact le_trans (Hsent c.units hne) hsum
  intro c hmem hlen hres
  unfold chunk_text_t at hmem
  by_cases hc : ((pySplit text "\n\n").foldl (step_para tk cs)
      initChunkState).cur.isEmpty = true
  · rw [if_pos hc] at hmem
    obtain ⟨hneu, hb⟩ := h3 c hmem
    exact hbound c hneu (hb hlen hres)
  · rw [if_neg hc] at hmem
    rcases List.mem_append.mp hmem with hold | hnew
    · obtain ⟨hneu, hb⟩ := h3 c hold
      exact hbound c hneu (hb hlen hres)
    · simp only [List.mem_singleton] at hnew
      subst hnew
      refine hbound _ (by simpa [List.isEmpty_iff] using hc) ?_
      exact h2 hres hlen

/-- C2 witness: with the demonstration tokenizer and budget 4, the chunk
[aa, bb] is a two-unit non-re-seed chunk of the run on
"aa\n\nbb\n\nccc" and its rendered content stays within the budget. -/
theorem chunk_size_bound_amended_witness :
    ({ units := ["aa", "bb"], sep := JoinSep.para,
       kind := FlushKind.paraOverflow,
       reseed_pair := false } : TChunk) ∈ chunk_text_t tk_demo 4 "aa\n\nbb\n\nccc" ∧
    tk_demo (render_chunk ({ units := ["aa", "bb"], sep := JoinSep.para,
                             kind := FlushKind.paraOverflow,
                             reseed_pair := false } : TChunk)) ≤ 4 :=
  ⟨by decide,
   chunk_size_bound_amended tk_demo 4
     (fun l _ => tk_demo_join_para l)
     (fun l _ => le_of_eq (tk_demo_join_sent l))
     "aa\n\nbb\n\nccc" _ (by decide) (by decide) (by decide)⟩

end MedRag
